import Mathlib

/-!
Verification of the `rasterDSM2DTM` repository's core pipeline
(`raster_utils.dsm_to_dtm_metric`) against its natural-language specification.

The grids of the program are 2-D numpy arrays of floating-point elevation
samples.  We embed a cell as `Option ℚ`, where `none` models IEEE NaN
(propagating through arithmetic and comparing unequal to every number) and
`some v` models an ordinary value.  A grid is a list of rows.
-/

attribute [local semireducible] Rat.add Rat.mul Rat.sub Rat.inv

namespace RasterDSM2DTM

/-- A pixel value: `none` models NaN, `some v` an ordinary float value. -/
abbrev Cell := Option ℚ

/-- A raster band: list of rows of cells. -/
abbrev Grid := List (List Cell)

/-- Width of a grid, read from its first row (numpy arrays are rectangular). -/
def rowW (g : Grid) : ℕ := (g.headD []).length

/-- Cell lookup at (row, col); out-of-range positions give NaN. -/
def cellAtNat (g : Grid) (i j : ℕ) : Cell := (g.getD i []).getD j none

/-- Build an `h × w` grid from a per-index cell function (models numpy
array construction of a known shape). -/
def mapGrid (h w : ℕ) (f : ℕ → ℕ → Cell) : Grid :=
  (List.range h).map (fun i => (List.range w).map (fun j => f i j))

lemma cellAtNat_mapGrid (h w : ℕ) (f : ℕ → ℕ → Cell) (p q : ℕ)
    (hp : p < h) (hq : q < w) : cellAtNat (mapGrid h w f) p q = f p q := by
  simp [cellAtNat, mapGrid, List.getD_eq_getElem?_getD, List.getElem?_map,
    List.getElem?_range, hp, hq]

lemma length_mapGrid (h w : ℕ) (f : ℕ → ℕ → Cell) :
    (mapGrid h w f).length = h := by
  simp [mapGrid]

/-- `raster_utils.py` line 42 and 45-46: `window_pixels =
math.ceil(search_radius_meters / res_x)`, incremented by one when even. -/
def windowPixels (search_radius_meters res : ℚ) : ℤ :=
  let wp := ⌈search_radius_meters / res⌉
  if wp % 2 = 0 then wp + 1 else wp

lemma windowPixels_odd (radius res : ℚ) : Odd (windowPixels radius res) := by
  unfold windowPixels
  by_cases hpar : ⌈radius / res⌉ % 2 = 0
  · simp only [hpar, if_true]
    exact (Int.even_iff.mpr hpar).add_one
  · simp only [hpar, if_false]
    exact Int.odd_iff.mpr (by omega)

lemma windowPixels_ge_ceil (radius res : ℚ) :
    ⌈radius / res⌉ ≤ windowPixels radius res := by
  simp only [windowPixels]
  split <;> omega

lemma windowPixels_pos (radius res : ℚ) (hr : 0 < radius) (hres : 0 < res) :
    1 ≤ windowPixels radius res := by
  have hceil : 0 < ⌈radius / res⌉ := Int.ceil_pos.mpr (div_pos hr hres)
  have := windowPixels_ge_ceil radius res
  omega

/-! ### Grayscale morphology (`scipy.ndimage.grey_opening`, default boundary
mode `reflect`).

`raster_utils.py` line 77 applies `grey_opening(dsm_temp, size=(window_pixels,
window_pixels))`: a grayscale erosion (windowed minimum) followed by a
grayscale dilation (windowed maximum) over the same centered square
structuring element, with out-of-range indices folded back by scipy's
`reflect` boundary rule `(d c b a | a b c d | d c b a)`.  NaN (`none`)
propagates through the windowed minimum/maximum as it does through numpy
comparisons. -/

/-- scipy `reflect` boundary folding of an arbitrary integer index into
`[0, n)`: the triangle wave of period `2n`. -/
def reflectIdx (n : ℕ) (i : ℤ) : ℤ :=
  let j := i % (2 * (n : ℤ))
  if j < n then j else 2 * n - 1 - j

lemma reflectIdx_nonneg (n : ℕ) (hn : 0 < n) (i : ℤ) : 0 ≤ reflectIdx n i := by
  have h0 : 0 ≤ i % (2 * (n : ℤ)) := Int.emod_nonneg i (by omega)
  have h1 : i % (2 * (n : ℤ)) < 2 * n := Int.emod_lt_of_pos i (by omega)
  simp only [reflectIdx]
  split <;> omega

lemma reflectIdx_lt (n : ℕ) (hn : 0 < n) (i : ℤ) : reflectIdx n i < n := by
  have h0 : 0 ≤ i % (2 * (n : ℤ)) := Int.emod_nonneg i (by omega)
  have h1 : i % (2 * (n : ℤ)) < 2 * n := Int.emod_lt_of_pos i (by omega)
  simp only [reflectIdx]
  split <;> omega

lemma reflectIdx_eq_self (n : ℕ) (i : ℤ) (h0 : 0 ≤ i) (h1 : i < n) :
    reflectIdx n i = i := by
  have hmod : i % (2 * (n : ℤ)) = i := Int.emod_eq_of_lt h0 (by omega)
  simp only [reflectIdx, hmod]
  omega

lemma reflectIdx_step (n : ℕ) (hn : 0 < n) (i : ℤ) :
    |reflectIdx n (i + 1) - reflectIdx n i| ≤ 1 := by
  have hm : (0 : ℤ) < 2 * n := by omega
  have h0 : 0 ≤ i % (2 * (n : ℤ)) := Int.emod_nonneg i (by omega)
  have h1 : i % (2 * (n : ℤ)) < 2 * n := Int.emod_lt_of_pos i hm
  have hone : (1 : ℤ) % (2 * n) = 1 := Int.emod_eq_of_lt (by omega) (by omega)
  have hadd : (i + 1) % (2 * (n : ℤ)) = (i % (2 * (n : ℤ)) + 1) % (2 * n) := by
    rw [Int.add_emod, hone]
  have hsucc : (i + 1) % (2 * (n : ℤ)) =
      if i % (2 * (n : ℤ)) + 1 = 2 * n then 0 else i % (2 * (n : ℤ)) + 1 := by
    rw [hadd]
    split
    · next h => rw [h, Int.emod_self]
    · next h => exact Int.emod_eq_of_lt (by omega) (by omega)
    -- both branches are pure congruence facts about emod
  rw [abs_le]
  simp only [reflectIdx, hsucc]
  split <;> split <;> split <;> omega

lemma reflectIdx_lipschitz_nat (n : ℕ) (hn : 0 < n) (b : ℤ) (k : ℕ) :
    |reflectIdx n (b + k) - reflectIdx n b| ≤ k := by
  induction k with
  | zero => simp
  | succ m ih =>
    have hstep := reflectIdx_step n hn (b + m)
    have htri : |reflectIdx n (b + (m + 1 : ℕ)) - reflectIdx n b| ≤
        |reflectIdx n (b + (m + 1 : ℕ)) - reflectIdx n (b + m)| +
        |reflectIdx n (b + m) - reflectIdx n b| := abs_sub_le _ _ _
    have harg : b + ((m + 1 : ℕ) : ℤ) = (b + m) + 1 := by push_cast; ring
    rw [harg] at htri ⊢
    calc |reflectIdx n (b + m + 1) - reflectIdx n b| ≤
        |reflectIdx n (b + m + 1) - reflectIdx n (b + m)| +
        |reflectIdx n (b + m) - reflectIdx n b| := htri
      _ ≤ 1 + m := by
          have := abs_sub_le (reflectIdx n (b + m + 1)) (reflectIdx n (b + m))
            (reflectIdx n b)
          exact add_le_add hstep ih
      _ ≤ (m + 1 : ℕ) := by push_cast; omega

lemma reflectIdx_lipschitz (n : ℕ) (hn : 0 < n) (a b : ℤ) :
    |reflectIdx n a - reflectIdx n b| ≤ |a - b| := by
  rcases le_total b a with hab | hab
  · have hk : a = b + ((a - b).toNat : ℤ) := by omega
    have := reflectIdx_lipschitz_nat n hn b (a - b).toNat
    rw [← hk] at this
    calc |reflectIdx n a - reflectIdx n b| ≤ ((a - b).toNat : ℤ) := this
      _ = |a - b| := by rw [abs_of_nonneg (by omega)]; omega
  · have hk : b = a + ((b - a).toNat : ℤ) := by omega
    have := reflectIdx_lipschitz_nat n hn a (b - a).toNat
    rw [← hk] at this
    rw [abs_sub_comm]
    calc |reflectIdx n b - reflectIdx n a| ≤ ((b - a).toNat : ℤ) := this
      _ = |a - b| := by rw [abs_sub_comm, abs_of_nonneg (by omega)]; omega

/-- Cell lookup at integer indices with `reflect` boundary folding on an
`h × w` grid. -/
def cellAt (h w : ℕ) (g : Grid) (i j : ℤ) : Cell :=
  cellAtNat g (reflectIdx h i).toNat (reflectIdx w j).toNat

/-- The centered offsets `-r, …, r` of a window of odd size `2r + 1`. -/
def offsets (r : ℕ) : List ℤ :=
  (List.range (2 * r + 1)).map (fun (k : ℕ) => (k : ℤ) - (r : ℤ))

lemma mem_offsets (r : ℕ) (d : ℤ) :
    d ∈ offsets r ↔ -(r : ℤ) ≤ d ∧ d ≤ r := by
  unfold offsets
  rw [List.mem_map]
  constructor
  · rintro ⟨k, hk, rfl⟩
    rw [List.mem_range] at hk
    constructor <;> omega
  · intro hd
    refine ⟨(d + r).toNat, ?_, ?_⟩
    · rw [List.mem_range]
      omega
    · omega

/-- All cell values of the `(2r+1) × (2r+1)` window centered at `(i, j)`. -/
def windowVals (f : ℤ → ℤ → Cell) (r : ℕ) (i j : ℤ) : List Cell :=
  (offsets r).flatMap (fun d1 => (offsets r).map (fun d2 => f (i + d1) (j + d2)))

lemma mem_windowVals (f : ℤ → ℤ → Cell) (r : ℕ) (i j : ℤ) (x : Cell) :
    x ∈ windowVals f r i j ↔
      ∃ d1 d2 : ℤ, (-(r : ℤ) ≤ d1 ∧ d1 ≤ r) ∧ (-(r : ℤ) ≤ d2 ∧ d2 ≤ r) ∧
        x = f (i + d1) (j + d2) := by
  simp only [windowVals, List.mem_flatMap, List.mem_map, mem_offsets]
  constructor
  · rintro ⟨d1, hd1, d2, hd2, rfl⟩
    exact ⟨d1, d2, hd1, hd2, rfl⟩
  · rintro ⟨d1, d2, hd1, hd2, rfl⟩
    exact ⟨d1, hd1, d2, hd2, rfl⟩

/-- NaN-propagating minimum of two cells (numpy comparison semantics). -/
def omin : Cell → Cell → Cell
  | some a, some b => some (min a b)
  | _, _ => none

/-- NaN-propagating maximum of two cells. -/
def omax : Cell → Cell → Cell
  | some a, some b => some (max a b)
  | _, _ => none

/-- Minimum of a window of cells (the window is never empty). -/
def foldMin : List Cell → Cell
  | [] => none
  | c :: cs => cs.foldl omin c

/-- Maximum of a window of cells. -/
def foldMax : List Cell → Cell
  | [] => none
  | c :: cs => cs.foldl omax c

lemma foldl_omin_none (cs : List Cell) : cs.foldl omin none = none := by
  induction cs with
  | nil => rfl
  | cons c cs ih => simpa [omin] using ih

lemma foldl_omax_none (cs : List Cell) : cs.foldl omax none = none := by
  induction cs with
  | nil => rfl
  | cons c cs ih => simpa [omax] using ih

lemma omin_le_left (x y : Cell) (m : ℚ) (h : omin x y = some m) :
    ∀ v : ℚ, x = some v → m ≤ v := by
  intro v hv
  subst hv
  rcases y with _ | cv
  · simp [omin] at h
  · simp only [omin, Option.some.injEq] at h
    subst h
    exact min_le_left _ _

lemma omin_le_right (x y : Cell) (m : ℚ) (h : omin x y = some m) :
    ∀ v : ℚ, y = some v → m ≤ v := by
  intro v hv
  subst hv
  rcases x with _ | iv
  · simp [omin] at h
  · simp only [omin, Option.some.injEq] at h
    subst h
    exact min_le_right _ _

lemma omax_le (x y : Cell) (m b : ℚ) (h : omax x y = some m)
    (hx : ∀ v : ℚ, x = some v → v ≤ b) (hy : ∀ v : ℚ, y = some v → v ≤ b) :
    m ≤ b := by
  rcases x with _ | iv
  · simp [omax] at h
  · rcases y with _ | cv
    · simp [omax] at h
    · simp only [omax, Option.some.injEq] at h
      subst h
      exact max_le (hx iv rfl) (hy cv rfl)

lemma foldl_omin_le (cs : List Cell) (init : Cell) (a : ℚ)
    (h : cs.foldl omin init = some a) :
    (∀ v : ℚ, init = some v → a ≤ v) ∧
      ∀ x ∈ cs, ∀ v : ℚ, x = some v → a ≤ v := by
  induction cs generalizing init with
  | nil =>
    refine ⟨fun v hv => ?_, by simp⟩
    simp only [List.foldl_nil] at h
    rw [hv] at h
    exact le_of_eq (Option.some_injective _ h).symm
  | cons c cs ih =>
    simp only [List.foldl_cons] at h
    rcases hmc : omin init c with _ | m
    · rw [hmc, foldl_omin_none] at h
      exact absurd h (by simp)
    · rw [hmc] at h
      obtain ⟨hinit, hmem⟩ := ih (some m) h
      have hm : a ≤ m := hinit m rfl
      refine ⟨fun v hv => hm.trans (omin_le_left init c m hmc v hv), ?_⟩
      intro x hx v hxv
      rw [List.mem_cons] at hx
      rcases hx with hx | hx
      · subst hx
        exact hm.trans (omin_le_right init x m hmc v hxv)
      · exact hmem x hx v hxv

lemma foldl_omax_le (cs : List Cell) (init : Cell) (b : ℚ)
    (hinit : ∀ v : ℚ, init = some v → v ≤ b)
    (hmem : ∀ x ∈ cs, ∀ v : ℚ, x = some v → v ≤ b) :
    ∀ a : ℚ, cs.foldl omax init = some a → a ≤ b := by
  induction cs generalizing init with
  | nil =>
    intro a h
    simp only [List.foldl_nil] at h
    exact hinit a h
  | cons c cs ih =>
    intro a h
    simp only [List.foldl_cons] at h
    refine ih (omax init c) ?_ (fun x hx => hmem x (by simp [hx])) a h
    intro v hv
    exact omax_le init c v b hv hinit (fun u hu => hmem c (by simp) u hu)

lemma foldMin_le (l : List Cell) (a : ℚ) (h : foldMin l = some a) :
    ∀ x ∈ l, ∀ v : ℚ, x = some v → a ≤ v := by
  rcases l with _ | ⟨c, cs⟩
  · simp [foldMin] at h
  · obtain ⟨hinit, hmem⟩ := foldl_omin_le cs c a h
    intro x hx v hxv
    rw [List.mem_cons] at hx
    rcases hx with hx | hx
    · exact hinit v (hx ▸ hxv)
    · exact hmem x hx v hxv

lemma le_foldMax (l : List Cell) (b : ℚ)
    (hmem : ∀ x ∈ l, ∀ v : ℚ, x = some v → v ≤ b) :
    ∀ a : ℚ, foldMax l = some a → a ≤ b := by
  rcases l with _ | ⟨c, cs⟩
  · intro a h
    simp [foldMax] at h
  · exact foldl_omax_le cs c b (fun v hv => hmem c (by simp) v hv)
      (fun x hx => hmem x (by simp [hx]))

/-- Grayscale erosion value at `(i, j)`: the windowed minimum. -/
def erosionAt (h w : ℕ) (g : Grid) (r : ℕ) (i j : ℤ) : Cell :=
  foldMin (windowVals (cellAt h w g) r i j)

/-- Grayscale dilation value at `(i, j)`: the windowed maximum. -/
def dilationAt (h w : ℕ) (g : Grid) (r : ℕ) (i j : ℤ) : Cell :=
  foldMax (windowVals (cellAt h w g) r i j)

/-- Grayscale erosion of an `h × w` grid with a centered square structuring
element of size `2r + 1`. -/
def grey_erosion (h w : ℕ) (g : Grid) (r : ℕ) : Grid :=
  mapGrid h w (fun i j => erosionAt h w g r i j)

/-- Grayscale dilation of an `h × w` grid. -/
def grey_dilation (h w : ℕ) (g : Grid) (r : ℕ) : Grid :=
  mapGrid h w (fun i j => dilationAt h w g r i j)

/-- `scipy.ndimage.grey_opening` with `size = (2r+1, 2r+1)`: erosion followed
by dilation over the same structuring element. -/
def grey_opening (h w : ℕ) (g : Grid) (r : ℕ) : Grid :=
  grey_dilation h w (grey_erosion h w g r) r

lemma cellAt_self (h w : ℕ) (g : Grid) (p q : ℕ) (hp : p < h) (hq : q < w)
    : cellAt h w g p q = cellAtNat g p q := by
  unfold cellAt
  rw [reflectIdx_eq_self h p (Int.natCast_nonneg p) (by exact_mod_cast hp),
    reflectIdx_eq_self w q (Int.natCast_nonneg q) (by exact_mod_cast hq),
    Int.toNat_natCast, Int.toNat_natCast]

/-- C8: for every grid `X` and every (odd) window `2r+1`, grayscale opening
never exceeds the input pointwise at any valid pixel: wherever both the
opening and the input carry an ordinary value, `open(X)[p,q] ≤ X[p,q]`.  The
DTM therefore never lies above the (imputed) surface it was derived from. -/
theorem C8_opening_le (h w : ℕ) (g : Grid) (r p q : ℕ)
    (hp : p < h) (hq : q < w) (a b : ℚ)
    (ha : cellAtNat (grey_opening h w g r) p q = some a)
    (hb : cellAtNat g p q = some b) : a ≤ b := by
  have h0 : 0 < h := by omega
  have w0 : 0 < w := by omega
  have hcell_pq : cellAt h w g p q = some b := by
    rw [cellAt_self h w g p q hp hq]
    exact hb
  have hdil : foldMax
      (windowVals (cellAt h w (grey_erosion h w g r)) r p q) = some a := by
    unfold grey_opening grey_dilation at ha
    rw [cellAtNat_mapGrid h w _ p q hp hq] at ha
    exact ha
  refine le_foldMax _ b ?_ a hdil
  intro x hx v hxv
  rw [mem_windowVals] at hx
  obtain ⟨d1, d2, hd1, hd2, rfl⟩ := hx
  have hi1n : 0 ≤ reflectIdx h (p + d1) := reflectIdx_nonneg h h0 _
  have hi1l : reflectIdx h (p + d1) < h := reflectIdx_lt h h0 _
  have hj1n : 0 ≤ reflectIdx w (q + d2) := reflectIdx_nonneg w w0 _
  have hj1l : reflectIdx w (q + d2) < w := reflectIdx_lt w w0 _
  have hfold : erosionAt h w g r (reflectIdx h (p + d1)) (reflectIdx w (q + d2))
      = some v := by
    rw [← hxv]
    unfold cellAt grey_erosion
    rw [cellAtNat_mapGrid h w _ _ _ (by omega) (by omega),
      Int.toNat_of_nonneg hi1n, Int.toNat_of_nonneg hj1n]
  unfold erosionAt at hfold
  have hmin := foldMin_le _ v hfold
  have hl1 : |reflectIdx h (p + d1) - p| ≤ (r : ℤ) := by
    have hid : reflectIdx h p = p :=
      reflectIdx_eq_self h p (Int.natCast_nonneg p) (by exact_mod_cast hp)
    have hl := reflectIdx_lipschitz h h0 (p + d1) p
    rw [hid] at hl
    refine hl.trans ?_
    rw [abs_le]
    constructor <;> omega
  have hl2 : |reflectIdx w (q + d2) - q| ≤ (r : ℤ) := by
    have hid : reflectIdx w q = q :=
      reflectIdx_eq_self w q (Int.natCast_nonneg q) (by exact_mod_cast hq)
    have hl := reflectIdx_lipschitz w w0 (q + d2) q
    rw [hid] at hl
    refine hl.trans ?_
    rw [abs_le]
    constructor <;> omega
  rw [abs_le] at hl1 hl2
  have hmem : cellAt h w g
      (reflectIdx h (p + d1) + ((p : ℤ) - reflectIdx h (p + d1)))
      (reflectIdx w (q + d2) + ((q : ℤ) - reflectIdx w (q + d2)))
      ∈ windowVals (cellAt h w g) r (reflectIdx h (p + d1)) (reflectIdx w (q + d2)) := by
    rw [mem_windowVals]
    refine ⟨(p : ℤ) - reflectIdx h (p + d1), (q : ℤ) - reflectIdx w (q + d2),
      ⟨by omega, by omega⟩, ⟨by omega, by omega⟩, rfl⟩
  have hval : cellAt h w g
      (reflectIdx h (p + d1) + ((p : ℤ) - reflectIdx h (p + d1)))
      (reflectIdx w (q + d2) + ((q : ℤ) - reflectIdx w (q + d2))) = some b := by
    have e1 : reflectIdx h (p + d1) + ((p : ℤ) - reflectIdx h (p + d1)) = p := by ring
    have e2 : reflectIdx w (q + d2) + ((q : ℤ) - reflectIdx w (q + d2)) = q := by ring
    rw [e1, e2]
    exact hcell_pq
  exact hmin _ hmem b hval

/-- C8 witness: a concrete valid evaluation of the opening. -/
theorem C8_opening_le_witness : (4 : ℚ) ≤ 5 :=
  C8_opening_le 1 2 [[some 5, some 4]] 1 0 0 (by decide) (by decide) 4 5
    (by decide) (by decide)

/-! ### Memory guard / downsampler (`raster_utils.py` lines 48-62). -/

/-- Integer (floor) square root, structurally recursive. -/
def isqrt : ℕ → ℕ
  | 0 => 0
  | n + 1 =>
    let r := isqrt n
    if (r + 1) * (r + 1) ≤ n + 1 then r + 1 else r

lemma isqrt_sq_le : ∀ n : ℕ, isqrt n * isqrt n ≤ n
  | 0 => le_refl 0
  | n + 1 => by
    simp only [isqrt]
    split
    · next h => exact h
    · next h => exact (isqrt_sq_le n).trans (Nat.le_succ n)

lemma lt_isqrt_succ_sq : ∀ n : ℕ, n < (isqrt n + 1) * (isqrt n + 1)
  | 0 => by simp [isqrt]
  | n + 1 => by
    simp only [isqrt]
    split
    · next h =>
      have h1 := lt_isqrt_succ_sq n
      have h2 : (isqrt n + 1) * (isqrt n + 1) < (isqrt n + 1 + 1) * (isqrt n + 1 + 1) :=
        Nat.mul_self_lt_mul_self (by omega)
      omega
    · next h => omega

lemma isqrt_pos : ∀ n : ℕ, 1 ≤ n → 1 ≤ isqrt n
  | 0, h => absurd h (by omega)
  | n + 1, _ => by
    simp only [isqrt]
    split
    · omega
    · next h =>
      rcases Nat.eq_zero_or_pos n with rfl | hn
      · exact absurd (by simp [isqrt]) h
      · exact isqrt_pos n hn

/-- `⌈√n⌉` for a natural number. -/
def ceilSqrtNat (n : ℕ) : ℕ :=
  if isqrt n * isqrt n = n then isqrt n else isqrt n + 1

/-- `raster_utils.py` lines 49-51: the downsample factor, `1` when the pixel
count fits the budget and `math.ceil(math.sqrt(total_pixels / max_pixels))`
otherwise.  Over exact arithmetic the latter is `⌈√⌈total/max⌉⌉`. -/
def downsampleFactor (total max_pixels : ℕ) : ℕ :=
  if total ≤ max_pixels then 1
  else ceilSqrtNat ((total + max_pixels - 1) / max_pixels)

lemma ceilSqrtNat_sq_ge (n : ℕ) : n ≤ ceilSqrtNat n * ceilSqrtNat n := by
  unfold ceilSqrtNat
  split
  · omega
  · have h1 : n < (isqrt n + 1) * (isqrt n + 1) := lt_isqrt_succ_sq n
    omega

lemma ceilSqrtNat_pred_sq_lt (n : ℕ) (hn : 1 ≤ n) :
    (ceilSqrtNat n - 1) * (ceilSqrtNat n - 1) < n := by
  have hs : isqrt n * isqrt n ≤ n := isqrt_sq_le n
  have hpos : 0 < isqrt n := isqrt_pos n hn
  unfold ceilSqrtNat
  split
  · next heq =>
    obtain ⟨t, ht⟩ : ∃ t, isqrt n = t + 1 := ⟨isqrt n - 1, by omega⟩
    calc (isqrt n - 1) * (isqrt n - 1) = t * t := by rw [ht]; simp
      _ < (t + 1) * (t + 1) := Nat.mul_self_lt_mul_self (Nat.lt_succ_self t)
      _ = n := by rw [← ht]; exact heq
  · next hne =>
    have h1 : isqrt n + 1 - 1 = isqrt n := by omega
    rw [h1]
    exact lt_of_le_of_ne hs hne

lemma ceil_div_mul_ge (t m : ℕ) (hm : 0 < m) : t ≤ ((t + m - 1) / m) * m := by
  rcases Nat.eq_zero_or_pos t with rfl | ht
  · simp
  have hdm := Nat.div_add_mod (t + m - 1) m
  have hr : (t + m - 1) % m < m := Nat.mod_lt _ hm
  have hcomm : ((t + m - 1) / m) * m = m * ((t + m - 1) / m) := Nat.mul_comm _ _
  omega

lemma ceil_div_pred_mul_lt (t m : ℕ) (hm : 0 < m) (ht : 0 < t) :
    ((t + m - 1) / m - 1) * m < t := by
  have h1 : ((t + m - 1) / m) * m ≤ t + m - 1 := Nat.div_mul_le_self _ _
  have h2 : ((t + m - 1) / m - 1) * m = ((t + m - 1) / m) * m - m := by
    rw [Nat.sub_mul, Nat.one_mul]
  omega

lemma downsampleFactor_eq_one (total max_pixels : ℕ) (h : total ≤ max_pixels) :
    downsampleFactor total max_pixels = 1 := by
  unfold downsampleFactor
  simp [h]

lemma downsampleFactor_sq_bounds (total max_pixels : ℕ)
    (hm : 0 < max_pixels) (h : max_pixels < total) :
    total ≤ downsampleFactor total max_pixels * downsampleFactor total max_pixels * max_pixels ∧
      (downsampleFactor total max_pixels - 1) * (downsampleFactor total max_pixels - 1) *
        max_pixels < total := by
  unfold downsampleFactor
  rw [if_neg (by omega)]
  have hq1 : 1 ≤ (total + max_pixels - 1) / max_pixels := by
    rw [Nat.one_le_div_iff hm]
    omega
  have hub := ceilSqrtNat_sq_ge ((total + max_pixels - 1) / max_pixels)
  have hlb := ceilSqrtNat_pred_sq_lt ((total + max_pixels - 1) / max_pixels) hq1
  constructor
  · calc total ≤ ((total + max_pixels - 1) / max_pixels) * max_pixels :=
        ceil_div_mul_ge total max_pixels hm
      _ ≤ ceilSqrtNat ((total + max_pixels - 1) / max_pixels) *
          ceilSqrtNat ((total + max_pixels - 1) / max_pixels) * max_pixels :=
        Nat.mul_le_mul_right _ hub
  · calc (ceilSqrtNat ((total + max_pixels - 1) / max_pixels) - 1) *
        (ceilSqrtNat ((total + max_pixels - 1) / max_pixels) - 1) * max_pixels ≤
        ((total + max_pixels - 1) / max_pixels - 1) * max_pixels :=
          Nat.mul_le_mul_right _ (by omega)
      _ < total := ceil_div_pred_mul_lt total max_pixels hm (by omega)

lemma downsampleFactor_ge_two (total max_pixels : ℕ)
    (hm : 0 < max_pixels) (h : max_pixels < total) :
    2 ≤ downsampleFactor total max_pixels := by
  obtain ⟨hub, _⟩ := downsampleFactor_sq_bounds total max_pixels hm h
  by_contra hlt
  push_neg at hlt
  have hf1 : downsampleFactor total max_pixels ≤ 1 := by omega
  have hsq : downsampleFactor total max_pixels * downsampleFactor total max_pixels *
      max_pixels ≤ 1 * 1 * max_pixels :=
    Nat.mul_le_mul_right _ (Nat.mul_le_mul hf1 hf1)
  have hone : 1 * 1 * max_pixels = max_pixels := by ring
  omega

/-! ### Averaging read of the Raster I/O collaborator.

`raster_utils.py` lines 55-59 call `src.read(1, out_shape=(out_height,
out_width), resampling=Resampling.average)` on the external raster library. -/

/-- NaN-propagating addition of cells. -/
def oadd : Cell → Cell → Cell
  | some a, some b => some (a + b)
  | _, _ => none

/-- NaN-propagating sum of a list of cells. -/
def osum (l : List Cell) : Cell := l.foldl oadd (some 0)

/-- Modelled from the spec: the Raster I/O collaborator's averaging read
(spec 4.2 / 6) — "every output cell averages the corresponding input block";
output cell `(i, j)` is the mean of the `f × f` source block at
`(i*f, j*f)`. -/
def blockAvgCell (g : Grid) (f : ℕ) (i j : ℕ) : Cell :=
  let cells := (List.range f).flatMap
    (fun a => (List.range f).map (fun b => cellAtNat g (i * f + a) (j * f + b)))
  match osum cells with
  | none => none
  | some s => some (s / ((f * f : ℕ) : ℚ))

/-- Modelled from the spec: the downsampled read, an `outH × outW` grid of
block averages. -/
def blockAverage (g : Grid) (f outH outW : ℕ) : Grid :=
  mapGrid outH outW (fun i j => blockAvgCell g f i j)

/-! ### Median imputation (`raster_utils.py` lines 71-73). -/

/-- All cells of a grid in row-major order. -/
def flatCells (g : Grid) : List Cell :=
  g.foldr (fun row acc => row ++ acc) []

/-- Insert into a sorted list of rationals. -/
def insertSorted (x : ℚ) : List ℚ → List ℚ
  | [] => [x]
  | y :: ys => if x ≤ y then x :: y :: ys else y :: insertSorted x ys

/-- Insertion sort. -/
def sortRats (l : List ℚ) : List ℚ := l.foldr insertSorted []

/-- Median of a list of rationals: middle element of the sorted list, or the
mean of the two middle elements for an even count (numpy's convention). -/
def medianList (l : List ℚ) : ℚ :=
  let s := sortRats l
  let n := l.length
  if n % 2 = 1 then s.getD (n / 2) 0
  else (s.getD (n / 2 - 1) 0 + s.getD (n / 2) 0) / 2

/-- `np.nanmedian(dsm)` (`raster_utils.py` line 73): the median of ALL
non-NaN cells of the grid — including cells holding the nodata sentinel.
NaN when no non-NaN cell exists. -/
def nanmedian (g : Grid) : Cell :=
  let vs := (flatCells g).filterMap id
  if vs.isEmpty then none else some (medianList vs)

/-- `raster_utils.py` lines 72-73: `dsm_temp = dsm.astype('float32');
dsm_temp[dsm_temp == nodata] = np.nanmedian(dsm)`.  Cells equal to the
sentinel are overwritten with the grid's nanmedian; all other cells
(including NaN cells, which compare unequal to the sentinel) are kept. -/
def imputeGrid (g : Grid) (nodata : ℚ) : Grid :=
  g.map (fun row => row.map (fun c => if c = some nodata then nanmedian g else c))

lemma getD_map_cell (f : Cell → Cell) (hf : f none = none) :
    ∀ (l : List Cell) (j : ℕ), (l.map f).getD j none = f (l.getD j none)
  | [], j => by simp [hf]
  | c :: l, 0 => by simp
  | c :: l, j + 1 => by simpa using getD_map_cell f hf l j

lemma cellAtNat_map_map (f : Cell → Cell) (hf : f none = none) :
    ∀ (g : Grid) (i j : ℕ),
      cellAtNat (g.map (fun row => row.map f)) i j = f (cellAtNat g i j)
  | [], i, j => by simp [cellAtNat, hf]
  | row :: g, 0, j => by
    simp only [cellAtNat, List.map_cons, List.getD_cons_zero]
    exact getD_map_cell f hf row j
  | row :: g, i + 1, j => by
    simp only [cellAtNat, List.map_cons, List.getD_cons_succ]
    exact cellAtNat_map_map f hf g i j

lemma cellAtNat_imputeGrid (g : Grid) (nodata : ℚ) (i j : ℕ) :
    cellAtNat (imputeGrid g nodata) i j =
      (if cellAtNat g i j = some nodata then nanmedian g else cellAtNat g i j) := by
  unfold imputeGrid
  exact cellAtNat_map_map _ (by simp) g i j

/-! ### Nodata restoration and CHM compositing
(`raster_utils.py` lines 78-79 and 112-113). -/

/-- Line 79: `dtm[(dsm == nodata) | np.isnan(dsm)] = nodata` applied to the
`dh × dw` working grids. -/
def restoreNodata (dh dw : ℕ) (dtm dsm : Grid) (nodata : ℚ) : Grid :=
  mapGrid dh dw (fun i j =>
    if cellAtNat dsm i j = some nodata ∨ cellAtNat dsm i j = none then some nodata
    else cellAtNat dtm i j)

/-- NaN-propagating subtraction of cells. -/
def osub : Cell → Cell → Cell
  | some a, some b => some (a - b)
  | _, _ => none

/-- Lines 112-113: `chm = dsm_original - dtm_original;
chm[(dsm_original == original_nodata) | (dtm_original == nodata)] =
original_nodata`, elementwise on the original `h × w` shape. -/
def chmCompose (h w : ℕ) (dsmO dtmO : Grid) (original_nodata nodata : ℚ) : Grid :=
  mapGrid h w (fun i j =>
    if cellAtNat dsmO i j = some original_nodata ∨ cellAtNat dtmO i j = some nodata
    then some original_nodata
    else osub (cellAtNat dsmO i j) (cellAtNat dtmO i j))

/-! ### Output paths (`raster_utils.py` line 115). -/

/-- Does `s` start with `pat`? -/
def startsWithL (pat s : List Char) : Bool := decide (s.take pat.length = pat)

/-- Recursion core of `replace_all`, structurally recursive on a fuel that
bounds the number of scanned characters (each step consumes at least one
character, so `s.length` fuel always suffices). -/
def replaceAux (pat rep : List Char) : ℕ → List Char → List Char
  | _, [] => []
  | 0, s => s
  | fuel + 1, c :: rest =>
    if pat ≠ [] ∧ startsWithL pat (c :: rest) then
      rep ++ replaceAux pat rep fuel ((c :: rest).drop pat.length)
    else
      c :: replaceAux pat rep fuel rest

/-- Python `str.replace`: replace every non-overlapping occurrence of `pat`
in `s` with `rep`, scanning left to right (`output_path.replace('.tif',
'_chm.tif')`, line 115). -/
def replace_all (pat rep s : List Char) : List Char :=
  replaceAux pat rep s.length s

/-- Does `pat` occur as a contiguous substring of `s`? -/
def containsSub (pat : List Char) : List Char → Bool
  | [] => decide (pat = [])
  | c :: rest => startsWithL pat (c :: rest) || containsSub pat rest

lemma replaceAux_of_not_containsSub (pat rep : List Char) :
    ∀ (fuel : ℕ) (s : List Char), containsSub pat s = false →
      replaceAux pat rep fuel s = s
  | fuel, [], _ => by cases fuel <;> rfl
  | 0, c :: rest, _ => rfl
  | fuel + 1, c :: rest, h => by
    unfold containsSub at h
    rw [Bool.or_eq_false_iff] at h
    unfold replaceAux
    rw [if_neg (by simp [h.1])]
    rw [replaceAux_of_not_containsSub pat rep fuel rest h.2]

lemma replace_all_of_not_containsSub (pat rep s : List Char)
    (h : containsSub pat s = false) :
    replace_all pat rep s = s :=
  replaceAux_of_not_containsSub pat rep s.length s h

/-- The `.tif` literal of `raster_utils.py` line 115. -/
def tifPat : List Char := ['.', 't', 'i', 'f']

/-- The `_chm.tif` literal of `raster_utils.py` line 115. -/
def chmRep : List Char := ['_', 'c', 'h', 'm', '.', 't', 'i', 'f']

/-- Content of a path after a sequence of writes: the last write wins. -/
def finalFile (writes : List (List Char × Grid)) (p : List Char) : Option Grid :=
  ((writes.filter (fun wr => wr.1 = p)).getLast?).map (fun wr => wr.2)

/-! ### The pipeline `dsm_to_dtm_metric` (`raster_utils.py` lines 17-136). -/

/-- An affine georeferencing transform `(x, y) ↦ (a·x + b·y + c, d·x + e·y + f)`,
as in `rasterio.transform.Affine`. -/
structure AffineT where
  a : ℚ
  b : ℚ
  c : ℚ
  d : ℚ
  e : ℚ
  f : ℚ
deriving DecidableEq

/-- `src.transform * Affine.scale(k, k)` (`raster_utils.py` line 62): the
linear part is scaled by `k`, the translation is unchanged. -/
def affineScale (t : AffineT) (k : ℚ) : AffineT :=
  ⟨t.a * k, t.b * k, t.c, t.d * k, t.e * k, t.f⟩

/-- What `rasterio.open` exposes of the source raster: pixel data, shape,
resolution, transform, CRS, optional nodata value and bounds. -/
structure SrcRaster where
  data : Grid
  height : ℕ
  width : ℕ
  res : ℚ
  transform : AffineT
  crs : String
  nodata : Option ℚ
  bounds : ℚ × ℚ × ℚ × ℚ
deriving DecidableEq

/-- Georeferencing metadata written with an output raster
(`out_meta` / `original_meta` in the source). -/
structure RasterMeta where
  height : ℕ
  width : ℕ
  transform : AffineT
  crs : String
  nodata : ℚ
deriving DecidableEq

/-- The `metadata` dict returned by `dsm_to_dtm_metric`
(`raster_utils.py` lines 124-134). -/
structure RunMetadata where
  resolution : ℚ
  window_pixels : ℤ
  window_meters : ℚ
  bounds : ℚ × ℚ × ℚ × ℚ
  crs : String
  shape : ℕ × ℕ
  original_shape : ℕ × ℕ
  downsampled : Bool
  downsample_factor : ℕ
deriving DecidableEq

/-- Everything a run of `dsm_to_dtm_metric` produces: the returned triple
(paths and metadata), the written rasters with their georeferencing, the
sequence of file writes, and — exposed for specification — the intermediate
grids (working DSM, imputed grid, reconciled DTM). -/
structure PipeResult where
  dtm_path : List Char
  chm_path : List Char
  dtm : Grid
  dtm_meta : RasterMeta
  chm : Grid
  chm_meta : RasterMeta
  dtm_original : Grid
  dsm_work : Grid
  dsm_temp : Grid
  writes : List (List Char × Grid)
  metadata : RunMetadata
deriving DecidableEq

/-- The typed failures named by the spec (section 7), plus the untyped
runtime failure numpy actually raises. -/
inductive PipeError where
  | invalidParameter
  | unreadableRaster
  | geometryMismatch
  | allNodata
  | ioError
  | runtimeError
deriving DecidableEq

/-- `raster_utils.dsm_to_dtm_metric` (lines 17-136).  The raster library is
a collaborator: the source is handed over already opened (`src`), and the
bilinear reprojection of lines 100-108 (only reached when downsampling
occurred) is the collaborator function `reproject0`, which fills a grid of
the original shape.  The only failure the Python function itself can raise
on these inputs is numpy's untyped error for a non-positive window size
(`np.ones` with a negative dimension inside `grey_opening`), modelled as
`PipeError.runtimeError`. -/
def dsm_to_dtm_metric (src : SrcRaster) (output_path : List Char)
    (search_radius_meters : ℚ) (max_pixels : ℕ)
    (reproject0 : Grid → AffineT → AffineT → Grid) :
    Except PipeError PipeResult :=
  let res_x := src.res
  let height := src.height
  let width := src.width
  let total_pixels := height * width
  let dsm_original := src.data
  let original_nodata := src.nodata.getD (-9999)
  let window_pixels := windowPixels search_radius_meters res_x
  let downsample := downsampleFactor total_pixels max_pixels
  let dsm := if max_pixels < total_pixels
    then blockAverage src.data downsample (height / downsample) (width / downsample)
    else src.data
  let affine := if max_pixels < total_pixels
    then affineScale src.transform (downsample : ℚ)
    else src.transform
  let dh := if max_pixels < total_pixels then height / downsample else height
  let dw := if max_pixels < total_pixels then width / downsample else width
  let nodata := src.nodata.getD (-9999)
  let dsm_temp := imputeGrid dsm nodata
  if window_pixels < 1 then Except.error PipeError.runtimeError
  else
    let r := ((window_pixels - 1) / 2).toNat
    let dtm0 := grey_opening dh dw dsm_temp r
    let dtm := restoreNodata dh dw dtm0 dsm nodata
    let dtm_meta : RasterMeta := ⟨dh, dw, affine, src.crs, nodata⟩
    let dtm_original := if 1 < downsample
      then reproject0 dtm affine src.transform
      else dtm
    let chm := chmCompose height width dsm_original dtm_original original_nodata nodata
    let chm_path := replace_all tifPat chmRep output_path
    let chm_meta : RasterMeta := ⟨height, width, src.transform, src.crs, original_nodata⟩
    let metadata : RunMetadata :=
      ⟨res_x, window_pixels, search_radius_meters, src.bounds, src.crs,
        (dh, dw), (height, width), decide (1 < downsample), downsample⟩
    Except.ok
      { dtm_path := output_path
        chm_path := chm_path
        dtm := dtm
        dtm_meta := dtm_meta
        chm := chm
        chm_meta := chm_meta
        dtm_original := dtm_original
        dsm_work := dsm
        dsm_temp := dsm_temp
        writes := [(output_path, dtm), (chm_path, chm)]
        metadata := metadata }

/-- Did a run complete without raising? -/
def pipeOk (e : Except PipeError PipeResult) : Bool :=
  match e with
  | Except.ok _ => true
  | Except.error _ => false

instance : DecidableEq (Except PipeError PipeResult) := fun x y =>
  match x, y with
  | Except.ok a, Except.ok b =>
    if h : a = b then isTrue (by rw [h])
    else isFalse (by intro hc; injection hc with h2; exact h h2)
  | Except.error a, Except.error b =>
    if h : a = b then isTrue (by rw [h])
    else isFalse (by intro hc; injection hc with h2; exact h h2)
  | Except.ok a, Except.error b => isFalse (fun hc => Except.noConfusion hc)
  | Except.error a, Except.ok b => isFalse (fun hc => Except.noConfusion hc)

/-! ### Concrete fixtures used by witnesses and counterexamples. -/

/-- A trivial stand-in for the reprojection collaborator in concrete runs:
returns its input grid unchanged. -/
def reprojectId : Grid → AffineT → AffineT → Grid := fun g _ _ => g

/-- A north-up unit transform. -/
def tUnit : AffineT := ⟨1, 0, 0, 0, -1, 0⟩

/-- A junk result used only as a `getD` default when extracting the payload
of a run already known to succeed. -/
def junkResult : PipeResult :=
  { dtm_path := [], chm_path := [], dtm := [], dtm_meta := ⟨0, 0, tUnit, "", 0⟩
    chm := [], chm_meta := ⟨0, 0, tUnit, "", 0⟩, dtm_original := []
    dsm_work := [], dsm_temp := [], writes := [],
    metadata := ⟨0, 0, 0, (0, 0, 0, 0), "", (0, 0), (0, 0), false, 0⟩ }

/-- A 1 × 1 source raster with a single valid sample. -/
def src1 : SrcRaster :=
  { data := [[some 7]], height := 1, width := 1, res := 1, transform := tUnit
    crs := "EPSG:32633", nodata := some (-9999), bounds := (0, 0, 1, 1) }

/-- The successful run of the pipeline on `src1` with radius 2. -/
def outP1 : PipeResult :=
  ((dsm_to_dtm_metric src1 ['a'] 2 15000000 reprojectId).toOption).getD junkResult

/-- C1: for positive radius and positive source resolution, the window size
computed by `dsm_to_dtm_metric` is odd, at least `⌈radius / resolution⌉`, at
least 1, and equals `windowPixels radius resolution` computed from the
original source resolution — whether or not the run downsampled. -/
theorem C1_window_sizer (src : SrcRaster) (path : List Char) (radius : ℚ)
    (maxp : ℕ) (orc : Grid → AffineT → AffineT → Grid) (out : PipeResult)
    (hr : 0 < radius) (hres : 0 < src.res)
    (hok : dsm_to_dtm_metric src path radius maxp orc = Except.ok out) :
    Odd out.metadata.window_pixels ∧
      ⌈radius / src.res⌉ ≤ out.metadata.window_pixels ∧
      1 ≤ out.metadata.window_pixels ∧
      out.metadata.window_pixels = windowPixels radius src.res := by
  have hw : out.metadata.window_pixels = windowPixels radius src.res := by
    simp only [dsm_to_dtm_metric] at hok
    split at hok
    · exact absurd hok (by simp)
    · rw [Except.ok.injEq] at hok
      subst hok
      rfl
  rw [hw]
  exact ⟨windowPixels_odd radius src.res, windowPixels_ge_ceil radius src.res,
    windowPixels_pos radius src.res hr hres, rfl⟩

/-- C1 witness: the concrete run of `dsm_to_dtm_metric` on `src1` with
radius 2 and resolution 1 (window forced from 2 to 3). -/
theorem C1_window_sizer_witness :
    Odd outP1.metadata.window_pixels ∧
      ⌈(2 : ℚ) / src1.res⌉ ≤ outP1.metadata.window_pixels ∧
      1 ≤ outP1.metadata.window_pixels ∧
      outP1.metadata.window_pixels = windowPixels 2 src1.res :=
  C1_window_sizer src1 ['a'] 2 15000000 reprojectId outP1 (by decide) (by decide)
    (by decide)

lemma downsampleFactor_eq_ceil_sqrt (total maxp : ℕ) (hm : 0 < maxp)
    (h : maxp < total) :
    (downsampleFactor total maxp : ℤ) = ⌈Real.sqrt ((total : ℝ) / (maxp : ℝ))⌉ := by
  obtain ⟨hub, hlb⟩ := downsampleFactor_sq_bounds total maxp hm h
  have hf2 : 2 ≤ downsampleFactor total maxp := downsampleFactor_ge_two total maxp hm h
  have hmR : (0 : ℝ) < (maxp : ℝ) := by exact_mod_cast hm
  have hubR : (total : ℝ) / (maxp : ℝ) ≤
      ((downsampleFactor total maxp : ℕ) : ℝ) ^ 2 := by
    rw [div_le_iff₀ hmR]
    have : ((total : ℕ) : ℝ) ≤
        ((downsampleFactor total maxp * downsampleFactor total maxp * maxp : ℕ) : ℝ) := by
      exact_mod_cast hub
    push_cast at this
    nlinarith [this]
  have hlbR : (((downsampleFactor total maxp - 1 : ℕ) : ℝ)) ^ 2 <
      (total : ℝ) / (maxp : ℝ) := by
    rw [lt_div_iff₀ hmR]
    have : (((downsampleFactor total maxp - 1) * (downsampleFactor total maxp - 1) *
        maxp : ℕ) : ℝ) < ((total : ℕ) : ℝ) := by
      exact_mod_cast hlb
    push_cast at this
    nlinarith [this]
  symm
  rw [Int.ceil_eq_iff]
  constructor
  · have hcast : ((downsampleFactor total maxp : ℤ) : ℝ) - 1 =
        ((downsampleFactor total maxp - 1 : ℕ) : ℝ) := by
      push_cast [Nat.cast_sub (by omega : 1 ≤ downsampleFactor total maxp)]
      ring
    rw [hcast]
    exact (Real.lt_sqrt (by positivity)).mpr hlbR
  · have hs := Real.sqrt_le_sqrt hubR
    rw [Real.sqrt_sq (by positivity)] at hs
    exact hs.trans_eq (by push_cast; ring)

/-- A 2 × 2 source raster with one nodata pixel, processed with
`max_pixels = 1` so downsampling (factor 2) occurs. -/
def srcDs : SrcRaster :=
  { data := [[some (-9999), some 10], [some 10, some 10]]
    height := 2, width := 2, res := 1, transform := tUnit
    crs := "EPSG:32633", nodata := some (-9999), bounds := (0, 0, 2, 2) }

/-- The successful downsampled run of the pipeline on `srcDs`. -/
def outDs : PipeResult :=
  ((dsm_to_dtm_metric srcDs "out.tif".toList 1 1 reprojectId).toOption).getD junkResult

/-- C7: a grid within the pixel budget is not downsampled (factor 1);
otherwise the factor is `⌈√(total/max_pixels)⌉`, an integer at least 2, and
the working grid shape is `(height / factor, width / factor)` with truncating
division, strictly smaller than the original in both axes. -/
theorem C7_downsampler (src : SrcRaster) (path : List Char) (radius : ℚ)
    (maxp : ℕ) (orc : Grid → AffineT → AffineT → Grid) (out : PipeResult)
    (hm : 0 < maxp)
    (hok : dsm_to_dtm_metric src path radius maxp orc = Except.ok out) :
    out.metadata.downsample_factor = downsampleFactor (src.height * src.width) maxp ∧
      (src.height * src.width ≤ maxp →
        out.metadata.downsample_factor = 1 ∧ out.metadata.downsampled = false ∧
          out.metadata.shape = (src.height, src.width)) ∧
      (maxp < src.height * src.width →
        2 ≤ out.metadata.downsample_factor ∧
          (out.metadata.downsample_factor : ℤ) =
            ⌈Real.sqrt ((src.height * src.width : ℕ) / (maxp : ℝ))⌉ ∧
          out.metadata.downsampled = true ∧
          out.metadata.shape = (src.height / out.metadata.downsample_factor,
            src.width / out.metadata.downsample_factor) ∧
          src.height / out.metadata.downsample_factor < src.height ∧
          src.width / out.metadata.downsample_factor < src.width) := by
  have hfields : out.metadata.downsample_factor =
      downsampleFactor (src.height * src.width) maxp ∧
      out.metadata.downsampled = decide (1 < downsampleFactor (src.height * src.width) maxp) ∧
      out.metadata.shape = ((if maxp < src.height * src.width
          then src.height / downsampleFactor (src.height * src.width) maxp
          else src.height),
        (if maxp < src.height * src.width
          then src.width / downsampleFactor (src.height * src.width) maxp
          else src.width)) := by
    simp only [dsm_to_dtm_metric] at hok
    split at hok
    · exact absurd hok (by simp)
    · rw [Except.ok.injEq] at hok
      subst hok
      exact ⟨rfl, rfl, rfl⟩
  obtain ⟨hfac, hdsb, hshape⟩ := hfields
  refine ⟨hfac, fun hle => ?_, fun hgt => ?_⟩
  · have h1 : downsampleFactor (src.height * src.width) maxp = 1 :=
      downsampleFactor_eq_one _ _ hle
    refine ⟨hfac.trans h1, ?_, ?_⟩
    · rw [hdsb, h1]
      decide
    · rw [hshape, if_neg (by omega), if_neg (by omega)]
  · have h2 : 2 ≤ downsampleFactor (src.height * src.width) maxp :=
      downsampleFactor_ge_two _ _ hm hgt
    have hh : 0 < src.height := by
      rcases Nat.eq_zero_or_pos src.height with h0 | h0
      · rw [h0] at hgt
        omega
      · exact h0
    have hw : 0 < src.width := by
      rcases Nat.eq_zero_or_pos src.width with h0 | h0
      · rw [h0] at hgt
        omega
      · exact h0
    refine ⟨by omega, ?_, ?_, ?_, ?_, ?_⟩
    · rw [hfac]
      exact downsampleFactor_eq_ceil_sqrt _ _ hm hgt
    · rw [hdsb]
      simp
      omega
    · rw [hshape, if_pos hgt, if_pos hgt, hfac]
    · rw [hfac]
      exact Nat.div_lt_self hh (by omega)
    · rw [hfac]
      exact Nat.div_lt_self hw (by omega)

/-- C7 witness: the concrete `2 × 2` run with `max_pixels = 1` (factor 2,
working shape `1 × 1`). -/
theorem C7_downsampler_witness :
    2 ≤ outDs.metadata.downsample_factor ∧
      outDs.metadata.shape = (srcDs.height / outDs.metadata.downsample_factor,
        srcDs.width / outDs.metadata.downsample_factor) ∧
      outDs.metadata.downsampled = true := by
  have h := (C7_downsampler srcDs "out.tif".toList 1 1 reprojectId outDs
    (by decide) (by decide)).2.2 (by decide)
  exact ⟨h.1, h.2.2.2.1, h.2.2.1⟩

/-- Eliminator for a successful run: spells out the full result record
(definitionally equal to the pipeline's `Except.ok` payload). -/
lemma run_ok_elim (src : SrcRaster) (path : List Char) (radius : ℚ) (maxp : ℕ)
    (orc : Grid → AffineT → AffineT → Grid) (out : PipeResult)
    (hok : dsm_to_dtm_metric src path radius maxp orc = Except.ok out) :
    ¬ windowPixels radius src.res < 1 ∧
      out =
      (let total := src.height * src.width
       let nd := src.nodata.getD (-9999)
       let f := downsampleFactor total maxp
       let dsmW := if maxp < total
         then blockAverage src.data f (src.height / f) (src.width / f)
         else src.data
       let affine := if maxp < total
         then affineScale src.transform (f : ℚ) else src.transform
       let dh := if maxp < total then src.height / f else src.height
       let dw := if maxp < total then src.width / f else src.width
       let r := ((windowPixels radius src.res - 1) / 2).toNat
       let dtm := restoreNodata dh dw (grey_opening dh dw (imputeGrid dsmW nd) r) dsmW nd
       let dtmO := if 1 < f then orc dtm affine src.transform else dtm
       let chm := chmCompose src.height src.width src.data dtmO nd nd
       let chm_path := replace_all tifPat chmRep path
       { dtm_path := path
         chm_path := chm_path
         dtm := dtm
         dtm_meta := ⟨dh, dw, affine, src.crs, nd⟩
         chm := chm
         chm_meta := ⟨src.height, src.width, src.transform, src.crs, nd⟩
         dtm_original := dtmO
         dsm_work := dsmW
         dsm_temp := imputeGrid dsmW nd
         writes := [(path, dtm), (chm_path, chm)]
         metadata := ⟨src.res, windowPixels radius src.res, radius, src.bounds,
           src.crs, (dh, dw), (src.height, src.width), decide (1 < f), f⟩ }) := by
  simp only [dsm_to_dtm_metric] at hok
  split at hok
  · exact absurd hok (by simp)
  · next hcond =>
    rw [Except.ok.injEq] at hok
    exact ⟨hcond, hok.symm⟩

/-- C5 (amended): `dsm_to_dtm_metric` performs no parameter validation and
never raises a typed `InvalidParameter`: the only failure it can raise is the
untyped runtime error from numpy, and only when the odd-forced window is
smaller than 1 (radius so negative that `⌈radius/res⌉` stays below 1 after
odd-forcing). -/
theorem C5_no_invalid_parameter (src : SrcRaster) (path : List Char)
    (radius : ℚ) (maxp : ℕ) (orc : Grid → AffineT → AffineT → Grid)
    (e : PipeError)
    (herr : dsm_to_dtm_metric src path radius maxp orc = Except.error e) :
    e = PipeError.runtimeError ∧ windowPixels radius src.res < 1 := by
  simp only [dsm_to_dtm_metric] at herr
  split at herr
  · next hcond =>
    rw [Except.error.injEq] at herr
    exact ⟨herr.symm, hcond⟩
  · exact absurd herr (by simp)

/-- C5 witness: radius `-3` makes the window `-3 < 1` and the run fail with
the untyped runtime error. -/
theorem C5_no_invalid_parameter_witness :
    PipeError.runtimeError = PipeError.runtimeError ∧
      windowPixels (-3) src1.res < 1 :=
  C5_no_invalid_parameter src1 ['a'] (-3) 15000000 reprojectId
    PipeError.runtimeError (by decide)

/-- C5 counterexample: with `search_radius_meters = 0 ≤ 0` (resolution 1 > 0)
the pipeline completes normally (the window becomes 1) instead of failing
with `InvalidParameter`. -/
theorem C5_counterexample :
    pipeOk (dsm_to_dtm_metric src1 ['a'] 0 15000000 reprojectId) = true ∧
      dsm_to_dtm_metric src1 ['a'] 0 15000000 reprojectId ≠
        Except.error PipeError.invalidParameter := by
  constructor
  · decide
  · decide

/-- C6 (amended): when every in-range cell of the source equals the nodata
sentinel (and the window is valid and no downsampling occurs), the pipeline
does not fail with `AllNodata`: it completes and both the DTM and the CHM
hold the sentinel at every in-range pixel. -/
theorem C6_all_nodata_completes (src : SrcRaster) (path : List Char)
    (radius : ℚ) (maxp : ℕ) (orc : Grid → AffineT → AffineT → Grid)
    (hwp : 1 ≤ windowPixels radius src.res)
    (hds : src.height * src.width ≤ maxp)
    (hall : ∀ p, p < src.height → ∀ q, q < src.width →
      cellAtNat src.data p q = some (src.nodata.getD (-9999))) :
    pipeOk (dsm_to_dtm_metric src path radius maxp orc) = true ∧
      ∀ out, dsm_to_dtm_metric src path radius maxp orc = Except.ok out →
        ∀ p, p < src.height → ∀ q, q < src.width →
          cellAtNat out.dtm p q = some (src.nodata.getD (-9999)) ∧
          cellAtNat out.chm p q = some (src.nodata.getD (-9999)) := by
  have hnotlt : ¬ windowPixels radius src.res < 1 := by omega
  constructor
  · simp only [dsm_to_dtm_metric, if_neg hnotlt, pipeOk]
  · intro out hok p hp q hq
    obtain ⟨-, rfl⟩ := run_ok_elim src path radius maxp orc out hok
    have hnds : ¬ maxp < src.height * src.width := by omega
    constructor
    · show cellAtNat (restoreNodata _ _ _ _ _) p q = _
      simp only [if_neg hnds]
      unfold restoreNodata
      rw [cellAtNat_mapGrid _ _ _ p q hp hq]
      rw [if_pos (Or.inl (hall p hp q hq))]
    · show cellAtNat (chmCompose _ _ _ _ _ _) p q = _
      unfold chmCompose
      rw [cellAtNat_mapGrid _ _ _ p q hp hq]
      rw [if_pos (Or.inl (hall p hp q hq))]

/-- A 1 × 1 source raster whose only cell is the nodata sentinel. -/
def srcAllNd : SrcRaster :=
  { data := [[some (-9999)]], height := 1, width := 1, res := 1
    transform := tUnit, crs := "EPSG:32633", nodata := some (-9999)
    bounds := (0, 0, 1, 1) }

/-- The successful run of the pipeline on the all-nodata raster. -/
def outAllNd : PipeResult :=
  ((dsm_to_dtm_metric srcAllNd ['a'] 1 15000000 reprojectId).toOption).getD junkResult

/-- C6 witness: on the all-nodata raster the run completes and both outputs
hold the sentinel. -/
theorem C6_all_nodata_completes_witness :
    cellAtNat outAllNd.dtm 0 0 = some (srcAllNd.nodata.getD (-9999)) ∧
      cellAtNat outAllNd.chm 0 0 = some (srcAllNd.nodata.getD (-9999)) :=
  (C6_all_nodata_completes srcAllNd ['a'] 1 15000000 reprojectId (by decide)
    (by decide) (by decide)).2 outAllNd (by decide) 0 (by decide) 0 (by decide)

/-- C6 counterexample: the all-nodata input completes successfully — the
pipeline never returns the typed `AllNodata` failure. -/
theorem C6_counterexample :
    pipeOk (dsm_to_dtm_metric srcAllNd ['a'] 1 15000000 reprojectId) = true ∧
      dsm_to_dtm_metric srcAllNd ['a'] 1 15000000 reprojectId ≠
        Except.error PipeError.allNodata := by
  constructor
  · decide
  · decide

lemma restore_cell (dh dw : ℕ) (dtm0 dsmW : Grid) (nd : ℚ) (p q : ℕ)
    (hp : p < dh) (hq : q < dw)
    (hmiss : cellAtNat dsmW p q = some nd ∨ cellAtNat dsmW p q = none) :
    cellAtNat (restoreNodata dh dw dtm0 dsmW nd) p q = some nd := by
  unfold restoreNodata
  rw [cellAtNat_mapGrid _ _ _ p q hp hq, if_pos hmiss]

lemma chm_cell_mask (h w : ℕ) (dsmO dtmO : Grid) (ond nd : ℚ) (p q : ℕ)
    (hp : p < h) (hq : q < w)
    (hmask : cellAtNat dsmO p q = some ond ∨ cellAtNat dtmO p q = some nd) :
    cellAtNat (chmCompose h w dsmO dtmO ond nd) p q = some ond := by
  unfold chmCompose
  rw [cellAtNat_mapGrid _ _ _ p q hp hq, if_pos hmask]

/-- C2 (amended): in runs without downsampling, every source pixel that is
the nodata sentinel or NaN is forced to the sentinel in both the written DTM
and the written CHM, so no originally-missing pixel receives a valid value.
(When downsampling occurs the code instead masks the DTM from the
downsampled grid — see the counterexample.) -/
theorem C2_nodata_propagation (src : SrcRaster) (path : List Char)
    (radius : ℚ) (maxp : ℕ) (orc : Grid → AffineT → AffineT → Grid)
    (out : PipeResult)
    (hds : src.height * src.width ≤ maxp)
    (hok : dsm_to_dtm_metric src path radius maxp orc = Except.ok out)
    (p q : ℕ) (hp : p < src.height) (hq : q < src.width)
    (hmiss : cellAtNat src.data p q = some (src.nodata.getD (-9999)) ∨
      cellAtNat src.data p q = none) :
    cellAtNat out.dtm p q = some (src.nodata.getD (-9999)) ∧
      cellAtNat out.chm p q = some (src.nodata.getD (-9999)) := by
  obtain ⟨-, rfl⟩ := run_ok_elim src path radius maxp orc out hok
  have hnds : ¬ maxp < src.height * src.width := by omega
  have hf1 : downsampleFactor (src.height * src.width) maxp = 1 :=
    downsampleFactor_eq_one _ _ hds
  simp only [if_neg hnds, hf1, if_neg (lt_irrefl 1)]
  have hdtm : cellAtNat (restoreNodata src.height src.width
      (grey_opening src.height src.width
        (imputeGrid src.data (src.nodata.getD (-9999)))
        ((windowPixels radius src.res - 1) / 2).toNat)
      src.data (src.nodata.getD (-9999))) p q = some (src.nodata.getD (-9999)) :=
    restore_cell _ _ _ _ _ p q hp hq hmiss
  refine ⟨hdtm, ?_⟩
  rcases hmiss with hnd | hnan
  · exact chm_cell_mask _ _ _ _ _ _ p q hp hq (Or.inl hnd)
  · exact chm_cell_mask _ _ _ _ _ _ p q hp hq (Or.inr hdtm)

/-- A 1 × 2 source raster whose first pixel is the nodata sentinel. -/
def srcNd : SrcRaster :=
  { data := [[some (-9999), some 5]], height := 1, width := 2, res := 1
    transform := tUnit, crs := "EPSG:32633", nodata := some (-9999)
    bounds := (0, 0, 2, 1) }

/-- The successful (no-downsample) run of the pipeline on `srcNd`. -/
def outNd : PipeResult :=
  ((dsm_to_dtm_metric srcNd ['a'] 1 15000000 reprojectId).toOption).getD junkResult

/-- C2 witness: the nodata pixel of `srcNd` is the sentinel in both written
outputs of the concrete run. -/
theorem C2_nodata_propagation_witness :
    cellAtNat outNd.dtm 0 0 = some (srcNd.nodata.getD (-9999)) ∧
      cellAtNat outNd.chm 0 0 = some (srcNd.nodata.getD (-9999)) :=
  C2_nodata_propagation srcNd ['a'] 1 15000000 reprojectId outNd (by decide)
    (by decide) 0 0 (by decide) (by decide) (Or.inl (by decide))

/-- C2 counterexample: in the downsampled run on `srcDs` (factor 2) the
source pixel (0, 0) is nodata, yet the written DTM is the single valid cell
`-9969/4` (the block average of the sentinel with its neighbours): the mask
is taken from the downsampled grid, not the original one, and the
originally-missing pixel receives a valid value. -/
theorem C2_counterexample :
    cellAtNat srcDs.data 0 0 = some (-9999) ∧
      (dsm_to_dtm_metric srcDs "out.tif".toList 1 1 reprojectId).toOption.map
        (fun o => o.dtm) = some [[some (-9969 / 4)]] ∧
      ((-9969 : ℚ) / 4) ≠ -9999 := by
  refine ⟨by decide, by decide, by decide⟩

/-- The failing input of C3: two sentinel cells and two valid cells. -/
def gC3 : Grid := [[some (-9999), some (-9999)], [some 10, some 20]]

/-- Modelled from the spec (section 4.3): the imputation value the spec
prescribes — the median of the grid's valid (non-nodata, non-NaN) values. -/
def medianOfValid (g : Grid) (nd : ℚ) : Cell :=
  let vs := ((flatCells g).filterMap id).filter (fun v => decide (v ≠ nd))
  if vs.isEmpty then none else some (medianList vs)

/-- C3 (code bug, evaluated at the failing input): line 73 imputes
`np.nanmedian(dsm)` — the median over ALL non-NaN cells, sentinels included —
which on `gC3` is `-9989/2`, not the median of valid values `15` that the
spec prescribes; and a NaN cell is not imputed at all (it compares unequal
to the sentinel), contradicting "replace nodata and NaN cells". -/
theorem C3_median_imputation_eval :
    cellAtNat (imputeGrid gC3 (-9999)) 0 0 = some (-9989 / 2) ∧
      medianOfValid gC3 (-9999) = some 15 ∧
      ((-9989 : ℚ) / 2) ≠ 15 ∧
      cellAtNat (imputeGrid [[none, some (-9999)], [some 10, some 20]] (-9999)) 0 0
        = none := by
  refine ⟨by decide, by decide, by decide, by decide⟩

/-- C4 (amended): the written CHM always carries the source's original shape,
transform and CRS; the DTM always carries the source CRS, but carries the
original shape and transform only when no downsampling occurred — in a
downsampled run it carries the downsampled shape and the factor-scaled
transform. -/
theorem C4_output_georef (src : SrcRaster) (path : List Char) (radius : ℚ)
    (maxp : ℕ) (orc : Grid → AffineT → AffineT → Grid) (out : PipeResult)
    (hok : dsm_to_dtm_metric src path radius maxp orc = Except.ok out) :
    out.chm_meta.height = src.height ∧
      out.chm_meta.width = src.width ∧
      out.chm_meta.transform = src.transform ∧
      out.chm_meta.crs = src.crs ∧
      out.dtm_meta.crs = src.crs ∧
      (src.height * src.width ≤ maxp →
        out.dtm_meta.height = src.height ∧ out.dtm_meta.width = src.width ∧
          out.dtm_meta.transform = src.transform) ∧
      (maxp < src.height * src.width →
        out.dtm_meta.height =
            src.height / downsampleFactor (src.height * src.width) maxp ∧
          out.dtm_meta.width =
            src.width / downsampleFactor (src.height * src.width) maxp ∧
          out.dtm_meta.transform = affineScale src.transform
            (downsampleFactor (src.height * src.width) maxp : ℚ)) := by
  obtain ⟨-, rfl⟩ := run_ok_elim src path radius maxp orc out hok
  refine ⟨rfl, rfl, rfl, rfl, rfl, fun hle => ?_, fun hgt => ?_⟩
  · have hnds : ¬ maxp < src.height * src.width := by omega
    exact ⟨if_neg hnds, if_neg hnds, if_neg hnds⟩
  · exact ⟨if_pos hgt, if_pos hgt, if_pos hgt⟩

/-- C4 witness: in the concrete downsampled run the CHM keeps the original
georeferencing while the DTM carries the downsampled shape. -/
theorem C4_output_georef_witness :
    outDs.chm_meta.height = srcDs.height ∧
      outDs.chm_meta.transform = srcDs.transform ∧
      outDs.dtm_meta.height =
        srcDs.height / downsampleFactor (srcDs.height * srcDs.width) 1 := by
  have h := C4_output_georef srcDs "out.tif".toList 1 1 reprojectId outDs (by decide)
  exact ⟨h.1, h.2.2.1, (h.2.2.2.2.2.2 (by decide)).1⟩

/-- C4 counterexample: in the downsampled 2 × 2 run the written DTM carries
shape 1 × 1 and the factor-scaled transform — not the source's original
2 × 2 shape and original transform as the claim asserts; the CHM keeps the
original shape. -/
theorem C4_counterexample :
    (dsm_to_dtm_metric srcDs "out.tif".toList 1 1 reprojectId).toOption.map
        (fun o => (o.dtm_meta.height, o.dtm_meta.width, o.dtm_meta.transform,
          o.chm_meta.height, o.chm_meta.width)) =
      some (1, 1, affineScale tUnit 2, 2, 2) ∧
      srcDs.height = 2 ∧ affineScale tUnit 2 ≠ tUnit := by
  refine ⟨by decide, by decide, by decide⟩

/-- C9: the CHM is the elementwise difference `dsm_original - dtm_original`
at original resolution, and every pixel where either grid holds its nodata
value is set to the DSM's sentinel. -/
theorem C9_chm_compositor (src : SrcRaster) (path : List Char) (radius : ℚ)
    (maxp : ℕ) (orc : Grid → AffineT → AffineT → Grid) (out : PipeResult)
    (hok : dsm_to_dtm_metric src path radius maxp orc = Except.ok out)
    (p q : ℕ) (hp : p < src.height) (hq : q < src.width) :
    (cellAtNat src.data p q = some (src.nodata.getD (-9999)) ∨
        cellAtNat out.dtm_original p q = some (src.nodata.getD (-9999)) →
      cellAtNat out.chm p q = some (src.nodata.getD (-9999))) ∧
      (¬ (cellAtNat src.data p q = some (src.nodata.getD (-9999)) ∨
          cellAtNat out.dtm_original p q = some (src.nodata.getD (-9999))) →
        cellAtNat out.chm p q =
          osub (cellAtNat src.data p q) (cellAtNat out.dtm_original p q)) := by
  obtain ⟨-, rfl⟩ := run_ok_elim src path radius maxp orc out hok
  constructor
  · intro hmask
    exact chm_cell_mask _ _ _ _ _ _ p q hp hq hmask
  · intro hmask
    show cellAtNat (chmCompose _ _ _ _ _ _) p q = _
    unfold chmCompose
    rw [cellAtNat_mapGrid _ _ _ p q hp hq, if_neg hmask]

/-- C9 witness: on the 1 × 1 valid run the unmasked pixel is the plain
difference of the two grids. -/
theorem C9_chm_compositor_witness :
    cellAtNat outP1.chm 0 0 =
      osub (cellAtNat src1.data 0 0) (cellAtNat outP1.dtm_original 0 0) :=
  (C9_chm_compositor src1 ['a'] 2 15000000 reprojectId outP1 (by decide)
    0 0 (by decide) (by decide)).2 (by decide)

/-- C10: the run returns `(output_path, chm_path, metadata)` where `chm_path`
replaces every occurrence of `.tif` in `output_path` with `_chm.tif`; the DTM
is written to `output_path` and then the CHM to `chm_path`; when
`output_path` has no `.tif` occurrence, `chm_path` equals `output_path` and
the CHM write overwrites the DTM file. -/
theorem C10_chm_path (src : SrcRaster) (path : List Char) (radius : ℚ)
    (maxp : ℕ) (orc : Grid → AffineT → AffineT → Grid) (out : PipeResult)
    (hok : dsm_to_dtm_metric src path radius maxp orc = Except.ok out) :
    out.dtm_path = path ∧
      out.chm_path = replace_all tifPat chmRep path ∧
      out.writes = [(path, out.dtm), (out.chm_path, out.chm)] ∧
      (containsSub tifPat path = false →
        out.chm_path = path ∧ finalFile out.writes path = some out.chm) := by
  obtain ⟨-, rfl⟩ := run_ok_elim src path radius maxp orc out hok
  refine ⟨rfl, rfl, rfl, fun hno => ?_⟩
  have heq : replace_all tifPat chmRep path = path :=
    replace_all_of_not_containsSub _ _ _ hno
  refine ⟨heq, ?_⟩
  show finalFile [(path, _), (replace_all tifPat chmRep path, _)] path = _
  rw [heq]
  unfold finalFile
  simp

/-- C10 witness: on a path with no `.tif` occurrence the CHM path equals the
DTM path and the final content of that path is the CHM. -/
theorem C10_chm_path_witness :
    outP1.dtm_path = ['a'] ∧ outP1.chm_path = ['a'] ∧
      finalFile outP1.writes ['a'] = some outP1.chm := by
  have h := C10_chm_path src1 ['a'] 2 15000000 reprojectId outP1 (by decide)
  exact ⟨h.1, (h.2.2.2 (by decide)).1, (h.2.2.2 (by decide)).2⟩

end RasterDSM2DTM
